import Mathlib

/-!
Verification of the multi-step questionnaire wizard core.

The definitions below are a shallow embedding of the wizard logic of
`src/src/components/MultiStepForm.tsx` (the dedicated component; the entry
point `src/src/App.tsx` carries a near-duplicate inline copy of the same
logic, which the design notes flag as redundant and resolve in favour of
the component version).  Pure helpers (`isVisible`, `isEmptyValue`,
`normalizeValue`, the gate computations) become Lean functions; the React
state (`stepIndex`, `formData`, `errors`, `showUnsavedModal`,
`pendingStepIndex`) becomes an explicit `WizardState` record threaded
through the event handlers; the `localStorage` boundary becomes an explicit
`Storage` record and a small model of the JSON round-trip.
-/

namespace MultiStepForm

/-- An answer value as stored in `formData`: a string, an array of strings
(handled by `isEmptyValue` even though no widget produces one), or an
opaque file handle (a JS `File` object, indexed here by a natural number).
Absence of a key is represented by `Option.none` at the lookup level. -/
inductive Value where
  | str : String → Value
  | arr : List String → Value
  | file : Nat → Value
deriving DecidableEq

/-- Whether a value is an opaque file handle. -/
def Value.isFile : Value → Bool
  | .file _ => true
  | _ => false

/-- The `formData` record: a JS plain object keyed by question id,
modelled as an association list in key-insertion order. -/
abbrev AnswerStore := List (String × Value)

/-- The `errors` record: question id mapped to an error message string. -/
abbrev ErrorMap := List (String × String)

/-- JS property read `obj[k]` on a plain object: the value under key `k`,
or `undefined` (`none`) when the key is absent. -/
def lookupKey {α : Type} : List (String × α) → String → Option α
  | [], _ => none
  | kv :: rest, k => if kv.1 = k then some kv.2 else lookupKey rest k

/-- JS spread-assignment `\x7b...obj, [k]: v\x7d`: overwrites the value of an
existing key in place, or appends a fresh key at the end. -/
def setKV {α : Type} : List (String × α) → String → α → List (String × α)
  | [], k, v => [(k, v)]
  | kv :: rest, k, v => if kv.1 = k then (k, v) :: rest else kv :: setKV rest k v

/-- The `conditional` field of a question: the controlling question id and
the list of values against which its current answer is matched. -/
structure Conditional where
  field : String
  value : List String
deriving DecidableEq

/-- The `type` discriminator of a question. -/
inductive QType where
  | text | radio | select | date | file
deriving DecidableEq

/-- A form question, mirroring the `Question` interface of the source. -/
structure Question where
  id : String
  label : String
  description : Option String
  type : QType
  options : Option (List String)
  layout : Option String
  required : Bool
  placeholder : Option String
  conditional : Option Conditional
deriving DecidableEq

/-- Builds a question with only the fields the wizard core inspects
(`id`, `required`, `conditional`); the presentation-only fields are
defaulted. -/
def mkQ (id : String) (req : Bool) (c : Option Conditional) : Question :=
  ⟨id, "", none, QType.text, none, none, req, none, c⟩

/-- A wizard step, mirroring the `Step` interface of the source. -/
structure Step where
  id : String
  title : String
  icon : String
  description : String
  questions : List Question
deriving DecidableEq

/-- The whole form definition, mirroring the `FormConfig` interface. -/
structure FormConfig where
  title : String
  steps : List Step

/-- JS `String.prototype.trim`: removes whitespace (including carriage
returns) from both ends of the string. -/
def jsTrim (s : String) : String :=
  String.mk (((s.data.dropWhile Char.isWhitespace).reverse.dropWhile
    Char.isWhitespace).reverse)

/-- `normalizeValue` (MultiStepForm.tsx lines 70-73): trims surrounding
whitespace from string values before storage, leaves other values as-is. -/
def normalizeValue : Value → Value
  | .str s => .str (jsTrim s)
  | v => v

/-- `isEmptyValue` (MultiStepForm.tsx lines 75-81): `undefined`/`null` are
empty, a string is empty iff its trimmed form is empty, an array is empty
iff it has no elements, anything else (files) is present. -/
def isEmptyValue : Option Value → Bool
  | none => true
  | some (.str s) => jsTrim s == ""
  | some (.arr l) => l.isEmpty
  | some (.file _) => false

/-- JS `String(v)` coercion on a defined answer value: identity on
strings, comma-joined elements for an array, `"[object File]"` for a file
handle (the default `Object.prototype.toString`). -/
def jsStringOfValue : Value → String
  | .str s => s
  | .arr l => String.intercalate "," l
  | .file _ => "[object File]"

/-- JS `String(v)` coercion on a possibly-absent answer: the string
`"undefined"` when the key is absent, otherwise the value's coercion. -/
def jsString : Option Value → String
  | none => "undefined"
  | some v => jsStringOfValue v

/-- JS `String(v)` coercion applied to a value that is already a string
(the elements of a conditional's `value` list): the identity. -/
def jsStringOfString (s : String) : String := s

/-- JS `Array.prototype.includes` on a list of strings (comparison by
strict equality). -/
def containsStr : List String → String → Bool
  | [], _ => false
  | x :: xs, s => if x = s then true else containsStr xs s

/-- `isVisible` (MultiStepForm.tsx lines 84-89): a question with no
conditional is always visible; otherwise visible iff
`value.map(String).includes(String(formData[field]))`. -/
def isVisible (q : Question) (formData : AnswerStore) : Bool :=
  match q.conditional with
  | none => true
  | some c =>
      containsStr (c.value.map jsStringOfString) (jsString (lookupKey formData c.field))

/-- The error message recorded for an unanswered required question. -/
def requiredMessage : String := "This field is required."

/-- The `newErrors` record built inside `validateStep` (MultiStepForm.tsx
lines 114-125): one entry per question of the step that is required,
visible, and whose current answer is empty. -/
def newErrors (step : Step) (formData : AnswerStore) : ErrorMap :=
  step.questions.foldl
    (fun errs q =>
      if q.required && isVisible q formData && isEmptyValue (lookupKey formData q.id) then
        setKV errs q.id requiredMessage
      else errs)
    []

/-- The boolean result of `validateStep`: true iff the recomputed error
record is empty. -/
def validateStep (step : Step) (formData : AnswerStore) : Bool :=
  (newErrors step formData).isEmpty

/-- The React component state of the wizard.  `stepIndex` is a JS number
(modelled as `Int`; the source never clamps it). -/
structure WizardState where
  stepIndex : Int
  formData : AnswerStore
  errors : ErrorMap
  showUnsavedModal : Bool
  pendingStepIndex : Option Int
deriving DecidableEq

/-- `handleChange` (MultiStepForm.tsx lines 108-112): stores the
normalized value under the question id and blanks (but does not remove)
that question's error entry. -/
def handleChange (id : String) (value : Value) (s : WizardState) : WizardState :=
  { s with
      formData := setKV s.formData id (normalizeValue value)
      errors := setKV s.errors id "" }

/-- `nextStep` (MultiStepForm.tsx lines 127-131): runs `validateStep`
(which replaces `errors` wholesale) and advances only when it reports no
errors.  `step` is the active `formConfig.steps[stepIndex]`. -/
def nextStep (step : Step) (s : WizardState) : WizardState :=
  let errs := newErrors step s.formData
  if errs.isEmpty then
    { s with errors := errs, stepIndex := s.stepIndex + 1 }
  else
    { s with errors := errs }

/-- `prevStep` (MultiStepForm.tsx lines 133-135): decrements `stepIndex`
unconditionally, with no validation and no lower bound. -/
def prevStep (s : WizardState) : WizardState :=
  { s with stepIndex := s.stepIndex - 1 }

/-- The navigation-menu click handler (MultiStepForm.tsx lines 288-296):
runs `validateStep` for the active step; when valid jumps directly to the
clicked step, otherwise records the pending target and opens the
unsaved-changes confirmation. -/
def requestJump (step : Step) (target : Int) (s : WizardState) : WizardState :=
  let errs := newErrors step s.formData
  if errs.isEmpty then
    { s with errors := errs, stepIndex := target }
  else
    { s with errors := errs, pendingStepIndex := some target, showUnsavedModal := true }

/-- The confirmation dialog's proceed actions (MultiStepForm.tsx lines
438-467): both buttons close the modal and, when a pending target exists,
jump to it (the save variant additionally rewrites the persisted answers;
neither touches `errors`).  A `none` target models the external exit. -/
def confirmProceed (s : WizardState) : WizardState :=
  match s.pendingStepIndex with
  | some t => { s with showUnsavedModal := false, stepIndex := t }
  | none => { s with showUnsavedModal := false }

/-- Dismissing the confirmation dialog (close button / `onClose`): only
closes the modal. -/
def dismissConfirmation (s : WizardState) : WizardState :=
  { s with showUnsavedModal := false }

/-- The two persisted slots (`localStorage` keys `healthAssessmentForm`
and `healthAssessmentStep`), each either absent or holding a string; the
answers slot is modelled by the store its serialized string encodes. -/
structure Storage where
  answersKey : Option AnswerStore
  stepKey : Option String
deriving DecidableEq

/-- `handleSubmit` (MultiStepForm.tsx lines 137-145): runs `validateStep`;
when it reports no errors, logs the full snapshot (the emitted submission,
returned here as the third component) and removes both persisted keys; in
either case the in-memory `stepIndex` and `formData` are not touched. -/
def handleSubmit (step : Step) (s : WizardState) (st : Storage) :
    WizardState × Storage × Option AnswerStore :=
  let errs := newErrors step s.formData
  if errs.isEmpty then
    ({ s with errors := errs }, ⟨none, none⟩, some s.formData)
  else
    ({ s with errors := errs }, st, none)

/-- `visibleQuestions` (MultiStepForm.tsx line 164): the active step's
questions whose conditional currently evaluates to visible. -/
def visibleQuestions (step : Step) (formData : AnswerStore) : List Question :=
  step.questions.filter (fun q => isVisible q formData)

/-- `requiredVisibleQuestions` (MultiStepForm.tsx line 168): the visible
questions marked required. -/
def requiredVisibleQuestions (step : Step) (formData : AnswerStore) : List Question :=
  (visibleQuestions step formData).filter (fun q => q.required)

/-- `answeredRequiredVisible` (MultiStepForm.tsx lines 170-173): the
required visible questions whose current answer is non-empty. -/
def answeredRequiredVisible (step : Step) (formData : AnswerStore) : List Question :=
  (requiredVisibleQuestions step formData).filter
    (fun q => !(isEmptyValue (lookupKey formData q.id)))

/-- `isNextEnabled` (MultiStepForm.tsx lines 175-176): every required
visible question is answered (stated as a length comparison of the two
filtered lists, exactly as in the source). -/
def isNextEnabled (step : Step) (formData : AnswerStore) : Bool :=
  (answeredRequiredVisible step formData).length ==
    (requiredVisibleQuestions step formData).length

/-- `isSaveEnabled` (MultiStepForm.tsx lines 179-181): some visible
question has a non-empty answer. -/
def isSaveEnabled (step : Step) (formData : AnswerStore) : Bool :=
  (visibleQuestions step formData).any
    (fun q => !(isEmptyValue (lookupKey formData q.id)))

/-- The JSON values exchanged through `JSON.stringify`/`JSON.parse` at the
persistence boundary (MultiStepForm.tsx lines 92-101): strings, arrays,
and plain objects are the shapes the wizard's value domain produces. -/
inductive Json where
  | str : String → Json
  | arr : List Json → Json
  | obj : List (String × Json) → Json

/-- Reads a JSON value back as a string, the shape check `JSON.parse`
performs implicitly when the stored value was a string. -/
def jsonAsString : Json → Option String
  | .str s => some s
  | _ => none

/-- Maps a fallible function over a list, failing when any element fails
(the shape of rebuilding a parsed structure bottom-up). -/
def optionMapList {α β : Type} (f : α → Option β) : List α → Option (List β)
  | [] => some []
  | x :: xs =>
      match f x, optionMapList f xs with
      | some y, some ys => some (y :: ys)
      | _, _ => none

/-- `JSON.stringify` on one answer value: a string serializes to a JSON
string, an array of strings to a JSON array, and a `File` object to `\x7b\x7d`
(its properties are not enumerable own properties). -/
def toJson : Value → Json
  | .str s => .str s
  | .arr l => .arr (l.map Json.str)
  | .file _ => .obj []

/-- `JSON.stringify(formData)` (MultiStepForm.tsx line 100), modelled at
the JSON-value level: the store becomes an object with one field per key
in insertion order. -/
def serializeStore (a : AnswerStore) : Json :=
  .obj (a.map (fun kv => (kv.1, toJson kv.2)))

/-- Reads one parsed JSON field back as an answer value.  A parsed plain
object (what a file handle serializes to) is not a supported answer value,
so it does not deserialize. -/
def parseValue : Json → Option Value
  | .str s => some (.str s)
  | .arr js => (optionMapList jsonAsString js).map Value.arr
  | .obj _ => none

/-- Reads one parsed JSON object field back as a store entry. -/
def parseEntry (kv : String × Json) : Option (String × Value) :=
  (parseValue kv.2).map (fun v => (kv.1, v))

/-- `JSON.parse(savedData)` (MultiStepForm.tsx line 95) restricted to the
wizard's value domain: a JSON object whose fields are all supported values
yields the corresponding store. -/
def deserializeStore : Json → Option AnswerStore
  | .obj kvs => optionMapList parseEntry kvs
  | _ => none

/-- The possible contents of the persisted answers slot as seen at session
start: the key is absent, holds a string `JSON.parse` rejects, or holds
the serialization of a store whose values survive JSON (per the spec, file
handles are session-local and not expected to round-trip). -/
inductive StoredAnswers where
  | absent : StoredAnswers
  | malformed : StoredAnswers
  | serialized : AnswerStore → StoredAnswers

/-- The digit-prefix part of JS `parseInt`: the longest leading run of
decimal digits, `NaN` (`none`) when there is none. -/
def digitsToNat (cs : List Char) : Option Nat :=
  let ds := cs.takeWhile Char.isDigit
  if ds.isEmpty then none
  else some (ds.foldl (fun n c => n * 10 + (c.toNat - 48)) 0)

/-- JS `parseInt(s, 10)` (MultiStepForm.tsx line 96): skips leading
whitespace, accepts an optional sign, parses the longest digit prefix,
ignores any trailing garbage, and yields `NaN` (`none`) when no digit is
found. -/
def parseInt10 (s : String) : Option Int :=
  let cs := s.toList.dropWhile Char.isWhitespace
  match cs with
  | '-' :: rest => (digitsToNat rest).map (fun n => -(n : Int))
  | '+' :: rest => (digitsToNat rest).map (fun n => (n : Int))
  | _ => (digitsToNat cs).map (fun n => (n : Int))

/-- The step index resulting from the restore gate
`if (savedStep) setStepIndex(parseInt(savedStep, 10))`: the initial `0`
when the slot is absent or holds the empty string (falsy), otherwise the
`parseInt` result, which may be `NaN` (`none`). -/
def restoredIndex (savedStep : Option String) : Option Int :=
  match savedStep with
  | none => some 0
  | some s => if s = "" then some 0 else parseInt10 s

/-- The mount-time restore effect (MultiStepForm.tsx lines 92-97): reads
both persisted slots; a present answers slot is `JSON.parse`d — a
malformed string makes the parse throw, aborting the effect
(`Except.error`) — and a present step slot is `parseInt`ed with no range
or `NaN` check.  The result is the restored `formData` and the restored
step index (`none` modelling `NaN`). -/
def restoreSession (initial : AnswerStore) (savedData : StoredAnswers)
    (savedStep : Option String) : Except Unit (AnswerStore × Option Int) :=
  match savedData with
  | .malformed => .error ()
  | .absent => .ok (initial, restoredIndex savedStep)
  | .serialized a => .ok (a, restoredIndex savedStep)

/-- A one-question step whose question `"a"` is required and
unconditional. -/
def sampleRequiredStep : Step :=
  ⟨"s1", "Step 1", "", "", [mkQ "a" true none]⟩

/-- A one-question step whose question `"b"` is optional. -/
def sampleOptionalStep : Step :=
  ⟨"s2", "Step 2", "", "", [mkQ "b" false none]⟩

/-- A two-step form built from the sample steps. -/
def sampleConfig : FormConfig :=
  ⟨"Health Assessment", [sampleRequiredStep, sampleOptionalStep]⟩

/-- The initial component state: step 0, empty answers, no errors, modal
closed, no pending target. -/
def initialState : WizardState :=
  ⟨0, [], [], false, none⟩

/- ===================== helper lemmas ===================== -/

lemma containsStr_iff (l : List String) (s : String) :
    containsStr l s = true ↔ s ∈ l := by
  induction l with
  | nil => simp [containsStr]
  | cons x xs ih =>
      by_cases h : x = s
      · simp [containsStr, h]
      · have h' : ¬ s = x := fun hh => h hh.symm
        simp [containsStr, h, ih, h']

lemma map_jsStringOfString (l : List String) : l.map jsStringOfString = l := by
  induction l with
  | nil => rfl
  | cons x xs ih => simp [jsStringOfString, ih]

lemma lookupKey_setKV_self {α : Type} (m : List (String × α)) (k : String) (v : α) :
    lookupKey (setKV m k v) k = some v := by
  induction m with
  | nil => simp [setKV, lookupKey]
  | cons kv rest ih =>
      by_cases h : kv.1 = k
      · simp [setKV, h, lookupKey]
      · simp [setKV, h, lookupKey, ih]

lemma lookupKey_setKV_ne {α : Type} (m : List (String × α)) (k i : String) (v : α)
    (h : i ≠ k) : lookupKey (setKV m k v) i = lookupKey m i := by
  induction m with
  | nil => simp [setKV, lookupKey, Ne.symm h]
  | cons kv rest ih =>
      by_cases hk : kv.1 = k
      · simp [setKV, hk, lookupKey, Ne.symm h]
      · by_cases hi : kv.1 = i <;> simp [setKV, hk, lookupKey, hi, ih, h]

lemma lookupKey_setKV_isSome {α : Type} (m : List (String × α)) (k i : String) (v : α) :
    (lookupKey (setKV m k v) i).isSome = true ↔
      ((lookupKey m i).isSome = true ∨ i = k) := by
  by_cases h : i = k
  · subst h; simp [lookupKey_setKV_self]
  · simp [lookupKey_setKV_ne m k i v h, h]

lemma lookupKey_errFold (p : Question → Bool) (msg : String) (qs : List Question) :
    ∀ (acc : ErrorMap) (i : String),
      (lookupKey
          (qs.foldl (fun errs q => if p q then setKV errs q.id msg else errs) acc)
          i).isSome = true ↔
        ((lookupKey acc i).isSome = true ∨ ∃ q ∈ qs, q.id = i ∧ p q = true) := by
  induction qs with
  | nil => intro acc i; simp
  | cons q qs ih =>
      intro acc i
      rw [List.foldl_cons, ih]
      by_cases hp : p q = true
      · rw [if_pos hp, lookupKey_setKV_isSome]
        constructor
        · rintro (⟨h | h⟩ | ⟨q', hq', hid, hpq'⟩)
          · exact Or.inl h
          · exact Or.inr ⟨q, List.mem_cons_self q qs, h.symm, hp⟩
          · exact Or.inr ⟨q', List.mem_cons_of_mem q hq', hid, hpq'⟩
        · rintro (h | ⟨q', hq', hid, hpq'⟩)
          · exact Or.inl (Or.inl h)
          · rcases List.mem_cons.mp hq' with hq1 | hq2
            · exact Or.inl (Or.inr (hq1 ▸ hid.symm))
            · exact Or.inr ⟨q', hq2, hid, hpq'⟩
      · rw [if_neg hp]
        constructor
        · rintro (h | ⟨q', hq', hid, hpq'⟩)
          · exact Or.inl h
          · exact Or.inr ⟨q', List.mem_cons_of_mem q hq', hid, hpq'⟩
        · rintro (h | ⟨q', hq', hid, hpq'⟩)
          · exact Or.inl h
          · rcases List.mem_cons.mp hq' with hq1 | hq2
            · exact absurd (hq1 ▸ hpq') hp
            · exact Or.inr ⟨q', hq2, hid, hpq'⟩

lemma setKV_eq_append {α : Type} (m : List (String × α)) (k : String) (v : α)
    (h : ∀ x ∈ m, x.1 ≠ k) : setKV m k v = m ++ [(k, v)] := by
  induction m with
  | nil => rfl
  | cons kv rest ih =>
      have h1 : kv.1 ≠ k := h kv (List.mem_cons_self _ _)
      simp [setKV, h1, ih (fun x hx => h x (List.mem_cons_of_mem _ hx))]

lemma errFold_eq_filter_map (p : Question → Bool) (msg : String) (qs : List Question) :
    ∀ (acc : ErrorMap),
      (qs.map Question.id).Nodup →
      (∀ q ∈ qs, ∀ x ∈ acc, x.1 ≠ q.id) →
      qs.foldl (fun errs q => if p q then setKV errs q.id msg else errs) acc =
        acc ++ (qs.filter p).map (fun q => (q.id, msg)) := by
  induction qs with
  | nil => intro acc _ _; simp
  | cons q qs ih =>
      intro acc hnd hdisj
      have hboth : (∀ x ∈ qs, ¬ x.id = q.id) ∧ (qs.map Question.id).Nodup := by
        simpa using hnd
      have hqid : q.id ∉ qs.map Question.id := by
        intro hmem
        rcases List.mem_map.mp hmem with ⟨x, hx, hid⟩
        exact hboth.1 x hx hid
      have hnd' : (qs.map Question.id).Nodup := hboth.2
      rw [List.foldl_cons]
      by_cases hp : p q = true
      · rw [if_pos hp,
          setKV_eq_append acc q.id msg (fun x hx => hdisj q (List.mem_cons_self _ _) x hx)]
        rw [ih (acc ++ [(q.id, msg)]) hnd' ?_]
        · simp [List.filter_cons, hp]
        · intro q' hq' x hx
          rcases List.mem_append.mp hx with hx1 | hx2
          · exact hdisj q' (List.mem_cons_of_mem _ hq') x hx1
          · have hxe : x = (q.id, msg) := by simpa using hx2
            subst hxe
            intro heq
            have heq' : q.id = q'.id := heq
            exact hqid (by rw [heq']; exact List.mem_map_of_mem Question.id hq')
      · rw [if_neg hp,
          ih acc hnd' (fun q' hq' => hdisj q' (List.mem_cons_of_mem _ hq'))]
        simp [List.filter_cons, hp]

lemma newErrors_eq_filter (step : Step) (a : AnswerStore)
    (hnd : (step.questions.map Question.id).Nodup) :
    newErrors step a =
      (step.questions.filter
        (fun q => q.required && isVisible q a && isEmptyValue (lookupKey a q.id))).map
        (fun q => (q.id, requiredMessage)) := by
  unfold newErrors
  rw [errFold_eq_filter_map _ _ _ [] hnd (by simp)]
  simp

/- ===================== claim theorems ===================== -/

/-- Claim C1: a question with no conditional is always visible; a question
with conditional `\x7bfield, value\x7d` is visible iff the string coercion of
the current answer for `field` is a member of the string coercions of the
elements of `value` (exact, case-sensitive membership). -/
theorem isVisible_string_membership (q : Question) (a : AnswerStore) :
    isVisible q a = true ↔
      (q.conditional = none ∨
        ∃ c, q.conditional = some c ∧
          jsString (lookupKey a c.field) ∈ c.value.map jsStringOfString) := by
  cases hq : q.conditional with
  | none => simp [isVisible, hq]
  | some c => simp [isVisible, hq, containsStr_iff]

/-- Claim C10: when the conditional's controller field has no entry in the
answer store, the question is visible iff the conditional's value list
contains the literal string `"undefined"` (the coercion of an absent
answer); with only ordinary option strings in the list, an unanswered
controller hides the question. -/
theorem isVisible_unanswered_controller (q : Question) (a : AnswerStore)
    (c : Conditional) (hc : q.conditional = some c)
    (ha : lookupKey a c.field = none) :
    isVisible q a = true ↔ "undefined" ∈ c.value := by
  simp [isVisible, hc, ha, containsStr_iff, jsString, map_jsStringOfString]

/-- Witness for C10 at a concrete input: an unanswered controller with
`"undefined"` among the match values makes the question visible. -/
theorem isVisible_unanswered_controller_witness :
    isVisible (mkQ "detail" false (some ⟨"smoker", ["undefined"]⟩)) [] = true :=
  (isVisible_unanswered_controller
      (mkQ "detail" false (some ⟨"smoker", ["undefined"]⟩)) []
      ⟨"smoker", ["undefined"]⟩ rfl rfl).mpr (by decide)

/-- Claim C2: the error record computed by `validateStep` has an entry for
an id `i` iff some question of the step with id `i` is required, visible,
and currently empty; in particular a hidden question never receives an
entry, even if required. -/
theorem validateStep_error_iff (step : Step) (a : AnswerStore) (i : String) :
    (lookupKey (newErrors step a) i).isSome = true ↔
      ∃ q ∈ step.questions, q.id = i ∧ q.required = true ∧
        isVisible q a = true ∧ isEmptyValue (lookupKey a q.id) = true := by
  unfold newErrors
  rw [lookupKey_errFold]
  simp [lookupKey, Bool.and_eq_true, and_assoc]

/-- Claim C3: the next-enablement gate is true iff every question of the
step that is required and currently visible has a non-empty answer;
optional and hidden questions never affect it. -/
theorem isNextEnabled_iff (step : Step) (fd : AnswerStore) :
    isNextEnabled step fd = true ↔
      ∀ q ∈ step.questions, q.required = true → isVisible q fd = true →
        isEmptyValue (lookupKey fd q.id) = false := by
  unfold isNextEnabled answeredRequiredVisible
  rw [beq_iff_eq]
  constructor
  · intro h q hq hreq hvis
    have hsub :
        List.Sublist
          ((requiredVisibleQuestions step fd).filter
            (fun q => !(isEmptyValue (lookupKey fd q.id))))
          (requiredVisibleQuestions step fd) :=
      List.filter_sublist _
    have heq := hsub.eq_of_length h
    have hmem : q ∈ requiredVisibleQuestions step fd := by
      unfold requiredVisibleQuestions visibleQuestions
      exact List.mem_filter.mpr ⟨List.mem_filter.mpr ⟨hq, hvis⟩, hreq⟩
    rw [← heq] at hmem
    have := (List.mem_filter.mp hmem).2
    simpa using this
  · intro h
    have hall : ∀ q ∈ requiredVisibleQuestions step fd,
        (!(isEmptyValue (lookupKey fd q.id))) = true := by
      intro q hq
      unfold requiredVisibleQuestions visibleQuestions at hq
      have h1 := List.mem_filter.mp hq
      have h2 := List.mem_filter.mp h1.1
      simpa using h q h2.1 h1.2 h2.2
    rw [List.filter_eq_self.mpr hall]

/-- Claim C6: when the active step has a required visible question with an
empty answer, `nextStep` leaves `stepIndex`, `formData`, the modal flag and
the pending target unchanged, and sets the error record to exactly one
entry per such question (nothing else): the transition fully no-ops apart
from the recomputed errors. -/
theorem requestNext_blocked (step : Step) (s : WizardState)
    (hnd : (step.questions.map Question.id).Nodup)
    (hex : ∃ q ∈ step.questions, q.required = true ∧
      isVisible q s.formData = true ∧
      isEmptyValue (lookupKey s.formData q.id) = true) :
    (nextStep step s).stepIndex = s.stepIndex ∧
    (nextStep step s).errors =
      (step.questions.filter
        (fun q => q.required && isVisible q s.formData &&
          isEmptyValue (lookupKey s.formData q.id))).map
        (fun q => (q.id, requiredMessage)) ∧
    (nextStep step s).formData = s.formData ∧
    (nextStep step s).showUnsavedModal = s.showUnsavedModal ∧
    (nextStep step s).pendingStepIndex = s.pendingStepIndex := by
  obtain ⟨q, hq, h1, h2, h3⟩ := hex
  have hmem : q ∈ step.questions.filter
      (fun q => q.required && isVisible q s.formData &&
        isEmptyValue (lookupKey s.formData q.id)) :=
    List.mem_filter.mpr ⟨hq, by simp [h1, h2, h3]⟩
  have hne : newErrors step s.formData ≠ [] := by
    rw [newErrors_eq_filter step s.formData hnd]
    exact List.ne_nil_of_mem (List.mem_map_of_mem _ hmem)
  have hempty : (newErrors step s.formData).isEmpty = false := by
    simpa [List.isEmpty_iff] using hne
  refine ⟨?_, ?_, ?_, ?_, ?_⟩
  · simp [nextStep, hempty]
  · rw [show (nextStep step s).errors = newErrors step s.formData by
      simp [nextStep, hempty]]
    exact newErrors_eq_filter _ _ hnd
  · simp [nextStep, hempty]
  · simp [nextStep, hempty]
  · simp [nextStep, hempty]

/-- Witness for C6: a required unconditional question with no answer
blocks the transition and yields exactly its error entry. -/
theorem requestNext_blocked_witness :
    ((sampleRequiredStep.questions.map Question.id).Nodup) ∧
    (nextStep sampleRequiredStep initialState).stepIndex = 0 ∧
    (nextStep sampleRequiredStep initialState).errors = [("a", requiredMessage)] :=
  ⟨by decide,
   (requestNext_blocked sampleRequiredStep initialState (by decide) (by decide)).1,
   by
     rw [(requestNext_blocked sampleRequiredStep initialState
       (by decide) (by decide)).2.1]
     decide⟩

/-- Counterexample to C4 as stated: `prevStep` applied at step 0 (the
initial state, reachable) yields `stepIndex = -1` instead of no-opping:
the controller has no defensive bounds of its own. -/
theorem prevStep_escapes_range :
    (prevStep initialState).stepIndex = -1 ∧
    ¬ (0 ≤ (prevStep initialState).stepIndex) := by
  exact ⟨rfl, by decide⟩

/-- Claim C4, amended: `stepIndex` stays within `0 ≤ stepIndex < len` only
under the presentation-layer guards (Back rendered only when
`stepIndex > 0`, Next only when `stepIndex < len - 1`, jump and pending
targets are valid step indices); the controller itself never clamps, and
`submit` and dismissal do not move the index. -/
theorem guarded_transitions_in_range (len : Int) (step : Step) (s : WizardState)
    (h0 : 0 ≤ s.stepIndex) (h1 : s.stepIndex < len) :
    (0 < s.stepIndex →
      0 ≤ (prevStep s).stepIndex ∧ (prevStep s).stepIndex < len) ∧
    (s.stepIndex < len - 1 →
      0 ≤ (nextStep step s).stepIndex ∧ (nextStep step s).stepIndex < len) ∧
    (∀ t : Int, 0 ≤ t → t < len →
      0 ≤ (requestJump step t s).stepIndex ∧ (requestJump step t s).stepIndex < len) ∧
    (∀ t : Int, s.pendingStepIndex = some t → 0 ≤ t → t < len →
      0 ≤ (confirmProceed s).stepIndex ∧ (confirmProceed s).stepIndex < len) ∧
    (s.pendingStepIndex = none → (confirmProceed s).stepIndex = s.stepIndex) ∧
    (0 ≤ (dismissConfirmation s).stepIndex ∧ (dismissConfirmation s).stepIndex < len) ∧
    (∀ st : Storage,
      0 ≤ (handleSubmit step s st).1.stepIndex ∧
        (handleSubmit step s st).1.stepIndex < len) := by
  refine ⟨?_, ?_, ?_, ?_, ?_, ?_, ?_⟩
  · intro h
    simp only [prevStep]
    omega
  · intro h
    cases he : (newErrors step s.formData).isEmpty <;>
      simp [nextStep, he] <;> omega
  · intro t ht0 ht1
    cases he : (newErrors step s.formData).isEmpty <;>
      simp [requestJump, he] <;> omega
  · intro t hpt ht0 ht1
    simp [confirmProceed, hpt]
    omega
  · intro hpn
    simp [confirmProceed, hpn]
  · exact ⟨h0, h1⟩
  · intro st
    cases he : (newErrors step s.formData).isEmpty <;>
      simp [handleSubmit, he] <;> exact ⟨h0, h1⟩

/-- Witness for the amended C4: from step 1 of a two-step form, the
guarded Back transition lands in range. -/
theorem guarded_transitions_in_range_witness :
    0 ≤ (prevStep ⟨1, [], [], false, none⟩).stepIndex ∧
    (prevStep ⟨1, [], [], false, none⟩).stepIndex < 2 :=
  (guarded_transitions_in_range 2 sampleRequiredStep ⟨1, [], [], false, none⟩
    (by decide) (by decide)).1 (by decide)

/-- Counterexample to C5 as stated: a valid submit from the last step of
the sample form clears both persisted keys and emits the snapshot, but
leaves `stepIndex = 1` (not 0) and the in-memory answers non-empty. -/
theorem handleSubmit_keeps_state_cex :
    (handleSubmit sampleOptionalStep
        ⟨1, [("a", Value.str "x")], [], false, none⟩
        ⟨some [("a", Value.str "x")], some "1"⟩).1.stepIndex = 1 ∧
    ((1 : Int) ≠ 0) ∧
    (handleSubmit sampleOptionalStep
        ⟨1, [("a", Value.str "x")], [], false, none⟩
        ⟨some [("a", Value.str "x")], some "1"⟩).1.formData =
      [("a", Value.str "x")] ∧
    ([("a", Value.str "x")] : AnswerStore) ≠ [] ∧
    (handleSubmit sampleOptionalStep
        ⟨1, [("a", Value.str "x")], [], false, none⟩
        ⟨some [("a", Value.str "x")], some "1"⟩).2.1 = (⟨none, none⟩ : Storage) ∧
    (handleSubmit sampleOptionalStep
        ⟨1, [("a", Value.str "x")], [], false, none⟩
        ⟨some [("a", Value.str "x")], some "1"⟩).2.2 =
      some [("a", Value.str "x")] := by
  decide

/-- Claim C5, amended: when `validateStep` reports no errors, `submit`
clears both persisted keys and emits the full answer snapshot but leaves
the in-memory `stepIndex` and answers unchanged (no reset to the initial
state); when validation fails, it populates the error record and changes
nothing else, clearing no persisted state. -/
theorem handleSubmit_spec (step : Step) (s : WizardState) (st : Storage) :
    (validateStep step s.formData = true →
      handleSubmit step s st =
        ({ s with errors := [] }, (⟨none, none⟩ : Storage), some s.formData)) ∧
    (validateStep step s.formData = false →
      handleSubmit step s st =
        ({ s with errors := newErrors step s.formData }, st, none)) := by
  constructor
  · intro h
    have h' : newErrors step s.formData = [] := by
      simpa [validateStep, List.isEmpty_iff] using h
    simp [handleSubmit, h']
  · intro h
    have h' : (newErrors step s.formData).isEmpty = false := by
      simpa [validateStep] using h
    simp [handleSubmit, h']

/-- Witness for the amended C5 at a concrete valid submission. -/
theorem handleSubmit_spec_witness :
    validateStep sampleOptionalStep [("a", Value.str "x")] = true ∧
    handleSubmit sampleOptionalStep
        ⟨1, [("a", Value.str "x")], [], false, none⟩ ⟨some [], some "1"⟩ =
      (⟨1, [("a", Value.str "x")], [], false, none⟩, (⟨none, none⟩ : Storage),
        some [("a", Value.str "x")]) :=
  ⟨by decide,
   (handleSubmit_spec sampleOptionalStep
      ⟨1, [("a", Value.str "x")], [], false, none⟩ ⟨some [], some "1"⟩).1
     (by decide)⟩

/-- Counterexample to C7 as stated: from the initial state of the sample
form, clicking step 2 in the menu fails validation of step 1 (question
`"a"` required, unanswered) and opens the confirmation; proceeding then
makes step 2 active while the error record still holds the entry for
`"a"`, a question not on the now-active step. -/
theorem stale_errors_cex :
    (confirmProceed (requestJump sampleRequiredStep 1 initialState)).stepIndex = 1 ∧
    sampleConfig.steps.get? 1 = some sampleOptionalStep ∧
    lookupKey (confirmProceed (requestJump sampleRequiredStep 1 initialState)).errors
      "a" = some requiredMessage ∧
    "a" ∉ sampleOptionalStep.questions.map Question.id := by
  decide

/-- Claim C7, amended: every validation pass recomputes the error record
wholesale — the validating transitions (`nextStep`, `requestJump`,
`handleSubmit`) replace it with `newErrors`, whose entries all belong to
the step that was validated — but transitions that skip validation (the
confirmation flow's proceed actions, `prevStep`) leave the record
untouched, so an entry for a previously active step's question can survive
such a navigation. -/
theorem errors_recomputed_wholesale (step : Step) (t : Int) (s : WizardState)
    (st : Storage) :
    (∀ i, (lookupKey (newErrors step s.formData) i).isSome = true →
      i ∈ step.questions.map Question.id) ∧
    (nextStep step s).errors = newErrors step s.formData ∧
    (requestJump step t s).errors = newErrors step s.formData ∧
    (handleSubmit step s st).1.errors = newErrors step s.formData ∧
    (confirmProceed s).errors = s.errors ∧
    (prevStep s).errors = s.errors := by
  refine ⟨?_, ?_, ?_, ?_, ?_, rfl⟩
  · intro i hi
    unfold newErrors at hi
    rw [lookupKey_errFold] at hi
    rcases hi with hi | ⟨q, hq, hid, _⟩
    · simp [lookupKey] at hi
    · exact hid ▸ List.mem_map_of_mem Question.id hq
  · cases he : (newErrors step s.formData).isEmpty <;> simp [nextStep, he]
  · cases he : (newErrors step s.formData).isEmpty <;> simp [requestJump, he]
  · cases he : (newErrors step s.formData).isEmpty <;> simp [handleSubmit, he]
  · cases hp : s.pendingStepIndex <;> simp [confirmProceed, hp]

/-- Witness for the amended C7: the recomputed record's one entry belongs
to the validated step. -/
theorem errors_recomputed_wholesale_witness :
    "a" ∈ sampleRequiredStep.questions.map Question.id :=
  (errors_recomputed_wholesale sampleRequiredStep 0 initialState
    ⟨none, none⟩).1 "a" (by decide)

/-- Counterexample to C8 as stated: a malformed persisted answers string
makes the restore effect throw (`JSON.parse` raises), so session start
does fail rather than degrading to "no prior session"; and a non-integer
persisted step string restores a `NaN` step index, not step 0. -/
theorem restore_malformed_cex :
    restoreSession [] StoredAnswers.malformed none = Except.error () ∧
    restoredIndex (some "abc") = none ∧
    restoreSession [] StoredAnswers.absent (some "abc") =
      Except.ok ([], none) := by
  exact ⟨rfl, rfl, rfl⟩

/-- Claim C8, amended: absent persisted keys are treated as "no prior
session" — the wizard starts from the supplied initial data and step 0 —
but malformed persisted data is not recovered: an unparseable answers
string aborts the restore with an exception, and a step-index string with
no leading integer restores a `NaN` index instead of step 0. -/
theorem restore_recovery (initial : AnswerStore) (ss : Option String) :
    restoreSession initial StoredAnswers.absent none = Except.ok (initial, some 0) ∧
    restoreSession initial StoredAnswers.malformed ss = Except.error () ∧
    (∀ s : String, s ≠ "" → parseInt10 s = none →
      restoreSession initial StoredAnswers.absent (some s) =
        Except.ok (initial, none)) := by
  refine ⟨rfl, rfl, ?_⟩
  intro s hs hp
  simp [restoreSession, restoredIndex, hs, hp]

/-- Witness for the amended C8 at a concrete junk step string. -/
theorem restore_recovery_witness :
    ("abc" ≠ "") ∧ parseInt10 "abc" = none ∧
    restoreSession [] StoredAnswers.absent (some "abc") = Except.ok ([], none) :=
  ⟨by decide, by decide,
   (restore_recovery [] none).2.2 "abc" (by decide) (by decide)⟩

lemma optionMapList_map_str (l : List String) :
    optionMapList jsonAsString (l.map Json.str) = some l := by
  induction l with
  | nil => rfl
  | cons x xs ih => simp [optionMapList, jsonAsString, ih]

lemma parseValue_toJson (v : Value) (h : v.isFile = false) :
    parseValue (toJson v) = some v := by
  cases v with
  | str s => rfl
  | arr l => simp [toJson, parseValue, optionMapList_map_str]
  | file n => simp [Value.isFile] at h

/-- Claim C9: for every answer store whose values are of the supported
non-file types, deserializing the serialized store yields the store back
(same keys, same values — in fact literal equality, which implies
observational equality under `lookupKey`); file handles are exempt. -/
theorem deserialize_serialize (a : AnswerStore)
    (h : ∀ kv ∈ a, kv.2.isFile = false) :
    deserializeStore (serializeStore a) = some a := by
  induction a with
  | nil => rfl
  | cons kv rest ih =>
      have h1 : kv.2.isFile = false := h kv (List.mem_cons_self _ _)
      have h2 := ih (fun x hx => h x (List.mem_cons_of_mem _ hx))
      have h2' : optionMapList parseEntry
          (rest.map (fun kv => (kv.1, toJson kv.2))) = some rest := by
        simpa [serializeStore, deserializeStore] using h2
      simp [serializeStore, deserializeStore, optionMapList, parseEntry,
        parseValue_toJson kv.2 h1, h2']

/-- Witness for C9 on a concrete file-free store with a string and an
array value. -/
theorem deserialize_serialize_witness :
    (∀ kv ∈ ([("n", Value.str "x"), ("t", Value.arr ["a", "b"])] : AnswerStore),
      kv.2.isFile = false) ∧
    deserializeStore (serializeStore
        [("n", Value.str "x"), ("t", Value.arr ["a", "b"])]) =
      some [("n", Value.str "x"), ("t", Value.arr ["a", "b"])] :=
  ⟨by decide, deserialize_serialize _ (by decide)⟩

end MultiStepForm
